import Mathlib

/-!
Shallow embedding of `lib/ws281x-native.js` (node-rpi-sk6812-native): the
pixel transformation and framing pipeline — index remapping, RGB→RGBW
conversion, gamma correction, brightness, little-endian frame encoding —
gated by the module's initialized/uninitialized lifecycle state.

Pixel words are JavaScript `Uint32Array` elements, modelled as `ℕ` (values
below `2^32`); byte extraction `(x >> k) & 0xff` on a `uint32` becomes
`x / 2 ^ k % 256`.  JavaScript numeric arithmetic inside the RGB→RGBW
conversion and the gamma-table construction is modelled exactly over `ℚ`
(resp. `ℝ`), the usual idealisation of IEEE doubles.
-/

namespace SK6812

/-- Strip-type identifiers.  Modelled from the spec: the `STRIP_TYPES` enum is
exported by the native module `rpi_ws281x.node`, which is not among the
JavaScript sources; the spec requires it to include an identifier for the
4-channel SK6812W variant that gates RGB→RGBW conversion. -/
inductive StripType where
  | SK6812W
  | WS2811
  | WS2812
deriving DecidableEq

/-- A JavaScript value passed as the `options` argument of `init`.  Option
fields are stored after `!!`-style boolean coercion; `strip_type` is `none`
when the field is absent (`undefined`).  JavaScript's `typeof` classifies
`null` as `'object'`. -/
inductive JSOptions where
  | undef
  | null
  | prim
  | obj (gammaCorrection : Bool) (rgbToRgbw : Bool) (strip_type : Option StripType)
deriving DecidableEq

/-- `typeof options === 'object'`: true for objects and for `null`. -/
def jsTypeofIsObject : JSOptions → Bool
  | .null => true
  | .obj _ _ _ => true
  | _ => false

/-- `!!options.gammaCorrection`.  Property access on `null`/`undefined`
throws a `TypeError`; on a primitive it yields `undefined`, which coerces
to `false`. -/
def readGammaCorrection : JSOptions → Except String Bool
  | .undef => .error "TypeError: cannot read properties of undefined"
  | .null => .error "TypeError: cannot read properties of null"
  | .prim => .ok false
  | .obj g _ _ => .ok g

/-- `!!options.rgbToRgbw`, with the same access semantics. -/
def readRgbToRgbw : JSOptions → Except String Bool
  | .undef => .error "TypeError: cannot read properties of undefined"
  | .null => .error "TypeError: cannot read properties of null"
  | .prim => .ok false
  | .obj _ w _ => .ok w

/-- `options.strip_type`, with the same access semantics. -/
def readStripType : JSOptions → Except String (Option StripType)
  | .undef => .error "TypeError: cannot read properties of undefined"
  | .null => .error "TypeError: cannot read properties of null"
  | .prim => .ok none
  | .obj _ _ st => .ok st

/-- The module-level mutable state: `_isInitialized`, `_indexMapping`,
`_outputBuffer`, `_useGammaCorrection`, `_rgbToRgbw`.  The output buffer is a
byte list; `none` models the JavaScript `null`. -/
structure RpiState where
  isInitialized : Bool
  indexMapping : Option (List ℕ)
  outputBuffer : Option (List ℕ)
  useGammaCorrection : Bool
  rgbToRgbw : Bool
deriving DecidableEq

/-- The state at module load: nothing initialized, no mapping, no buffer
(the two boolean flags start as JavaScript `null`, i.e. falsy). -/
def initialState : RpiState :=
  { isInitialized := false
    indexMapping := none
    outputBuffer := none
    useGammaCorrection := false
    rgbToRgbw := false }

/-- Entry `i` of the 256-entry `_gammaTable`: the source stores
`Math.floor(Math.pow(i / 255, 1 / 0.45) * 255 + 0.5)`.  Over exact real
arithmetic, for `1 ≤ m ≤ 255` we have `m ≤ (i/255)^(20/9) · 255 + 1/2` iff
`(2m−1)^9 · 255^20 ≤ i^20 · 510^9` (raise both sides of
`(2m−1)/510 ≤ (i/255)^(20/9)` to the 9th power), so the floor equals the
number of such `m`; `gammaEntry_eq_floor` below proves this agreement with
the floor formula. -/
def gammaEntry (i : ℕ) : ℕ :=
  (List.range 255).countP (fun j => (2 * j + 1) ^ 9 * 255 ^ 20 ≤ i ^ 20 * 510 ^ 9)

/-- `gammaCorrect(color)`: remap each of the four 8-bit channels of a packed
32-bit word through `_gammaTable` and reassemble the word with the same
channel ordering (`>>> 0` keeps the result an unsigned 32-bit value). -/
def gammaCorrect (color : ℕ) : ℕ :=
  gammaEntry (color % 256)
    + gammaEntry (color / 2 ^ 8 % 256) * 2 ^ 8
    + gammaEntry (color / 2 ^ 16 % 256) * 2 ^ 16
    + gammaEntry (color / 2 ^ 24 % 256) * 2 ^ 24

/-- `remap(data, indexMapping)`: copy `data` into `_tmpData`, then set
`data[i] = _tmpData[indexMapping[i]]` for every `i < data.length`.  Reading
`indexMapping[i]` past the end of the mapping yields `undefined`, and storing
`undefined` (as does reading `_tmpData[undefined]`) into a `Uint32Array` slot
stores `0`; an in-range mapping value `k` past the end of `_tmpData` likewise
reads as `0`. -/
def remap (data : List ℕ) (indexMapping : List ℕ) : List ℕ :=
  (List.range data.length).map fun i =>
    match indexMapping[i]? with
    | some k => data.getD k 0
    | none => 0

/-- JavaScript `~~x`: truncation toward zero (for the values arising in the
RGB→RGBW conversion, which fit in an int32). -/
def jsTrunc (q : ℚ) : ℤ :=
  q.num.tdiv q.den

/-- The per-pixel body of `rgbToRgbw(data)`: extract `rIn, gIn, bIn` from
bits 16–23, 8–15, 0–7; if `tMax = max(rIn,gIn,bIn)` is zero, leave the word
unchanged; otherwise compute `multiplier = 255 / tMax`, the hue-normalised
channels, `whiteness = ~~(((max + min)/2 − 127.5) · 2 / multiplier)`, and
repack `(whiteness << 24) | (rIn−whiteness) << 16 | (gIn−whiteness) << 8 |
(bIn−whiteness)`.  The exact value of `whiteness` is `min(rIn,gIn,bIn)`
(proved below), so every repacked field lies in `[0, 255]` and the bitwise
packing is the positional sum written here. -/
def rgbToRgbwPixel (pixelIn : ℕ) : ℕ :=
  let rIn := pixelIn / 2 ^ 16 % 256
  let gIn := pixelIn / 2 ^ 8 % 256
  let bIn := pixelIn % 256
  let tMax := max rIn (max gIn bIn)
  if tMax = 0 then pixelIn
  else
    let multiplier : ℚ := 255 / tMax
    let rHue : ℚ := rIn * multiplier
    let gHue : ℚ := gIn * multiplier
    let bHue : ℚ := bIn * multiplier
    let whiteness : ℤ :=
      jsTrunc (((max rHue (max gHue bHue) + min rHue (min gHue bHue)) / 2 - 127.5)
        * 2 / multiplier)
    whiteness.toNat * 2 ^ 24 + (rIn - whiteness.toNat) * 2 ^ 16
      + (gIn - whiteness.toNat) * 2 ^ 8 + (bIn - whiteness.toNat)

/-- `rgbToRgbw(data)` maps the per-pixel conversion over the array. -/
def rgbToRgbw (data : List ℕ) : List ℕ :=
  data.map rgbToRgbwPixel

/-- The four bytes `buffer.writeUInt32LE` writes for one pixel word:
least-significant byte first. -/
def wordLE (w : ℕ) : List ℕ :=
  [w % 256, w / 2 ^ 8 % 256, w / 2 ^ 16 % 256, w / 2 ^ 24 % 256]

/-- The encoding loop of `render`: word `i` is written little-endian at byte
offset `4·i`. -/
def encode : List ℕ → List ℕ
  | [] => []
  | w :: ws => wordLE w ++ encode ws

/-- Calls made on the native bindings (the HardwareAdapter). -/
inductive HWCall where
  | initHW (numLeds : ℕ)
  | renderHW (frame : List ℕ)
  | setBrightnessHW (value : ℕ)
  | resetHW
deriving DecidableEq

/-- `ws281x.init(numLeds, options)`: a non-object `options` (by `typeof`,
which lets `null` through) is replaced by `{}`; the option fields are then
read — which throws a `TypeError` when `options` is `null` — the frame buffer
of `4 · numLeds` bytes is allocated (`new Buffer` leaves its contents
unspecified; modelled as zeros), `_rgbToRgbw` is set only when both the
option is truthy and `options.strip_type` equals `STRIP_TYPES.SK6812W`, and
the configuration is forwarded to `bindings.init`.  (In the source the
assignments to `_isInitialized` and `_outputBuffer` precede the option reads,
so a thrown `TypeError` leaves those two already mutated; no claim below
depends on that partial state, and the error branch here simply discards
it.) -/
def init (numLeds : ℕ) (options : JSOptions) (s : RpiState) :
    Except String (RpiState × List HWCall) := do
  let options := if jsTypeofIsObject options then options else .obj false false none
  let gamma ← readGammaCorrection options
  let rgbw ← readRgbToRgbw options
  let stripType ← readStripType options
  .ok ({ s with
          isInitialized := true
          outputBuffer := some (List.replicate (4 * numLeds) 0)
          useGammaCorrection := gamma
          rgbToRgbw := rgbw && stripType == some .SK6812W },
        [HWCall.initHW numLeds])

/-- `ws281x.setIndexMapping(mapping)`: store the mapping; no lifecycle
check. -/
def setIndexMapping (s : RpiState) (mapping : List ℕ) : RpiState :=
  { s with indexMapping := some mapping }

/-- `ws281x.render(data)`: throw unless initialized; remap when a mapping is
registered; apply RGB→RGBW when `_rgbToRgbw`; then the source executes
`data.map(gammaCorrect)` — `TypedArray.prototype.map` returns a fresh array
which is immediately discarded, so the gamma pass never changes `data` (kept
here as an unused binding); write the words little-endian into
`_outputBuffer` (bytes past `4 · data.length` keep their prior contents);
hand the buffer to `bindings.render`; return the mutated `data`.  The
`beforeRender`/`render` events carry no state and are omitted. -/
def render (s : RpiState) (data : List ℕ) :
    Except String (RpiState × List ℕ × List HWCall) :=
  if !s.isInitialized then .error "render called before initialization."
  else
    let d1 := match s.indexMapping with
      | some m => remap data m
      | none => data
    let d2 := if s.rgbToRgbw then rgbToRgbw d1 else d1
    let _discarded := if s.useGammaCorrection then d2.map gammaCorrect else d2
    let frame := encode d2 ++ (s.outputBuffer.getD []).drop (4 * d2.length)
    .ok ({ s with outputBuffer := some frame }, d2, [HWCall.renderHW frame])

/-- `ws281x.setBrightness(brightness, render)`: throw unless initialized;
when `_useGammaCorrection`, replace the value by `_gammaTable[brightness &
0xff]`; forward to `bindings.setBrightness`; unless the second argument is
exactly `false` (`render !== false`), retransmit the current `_outputBuffer`
via `bindings.render`.  The second argument is `none` when absent. -/
def setBrightness (s : RpiState) (brightness : ℕ) (autoRender : Option Bool) :
    Except String (List HWCall) :=
  if !s.isInitialized then .error "setBrightness called before initialization."
  else
    let b := if s.useGammaCorrection then gammaEntry (brightness % 256) else brightness
    .ok ([HWCall.setBrightnessHW b] ++
      if autoRender = some false then [] else [HWCall.renderHW (s.outputBuffer.getD [])])

/-- `ws281x.reset()`: clear `_isInitialized`, drop `_outputBuffer`, call
`bindings.reset()`.  `_indexMapping` is not touched. -/
def reset (s : RpiState) : RpiState × List HWCall :=
  ({ s with isInitialized := false, outputBuffer := none }, [HWCall.resetHW])

end SK6812

namespace SK6812

/-! ### Basic lemmas about the pipeline stages -/

theorem remap_length (data m : List ℕ) : (remap data m).length = data.length := by
  simp [remap]

theorem remap_getElem (data m : List ℕ) (i : ℕ) (hi : i < data.length)
    (hlen : data.length ≤ m.length) :
    (remap data m)[i]? = some (data.getD (m.getD i 0) 0) := by
  have him : i < m.length := lt_of_lt_of_le hi hlen
  have h1 : m[i]? = some m[i] := List.getElem?_eq_getElem him
  simp [remap, List.getElem?_map, List.getElem?_range hi, h1, List.getD_eq_getElem m 0 him]

theorem remap_identity (data : List ℕ) : remap data (List.range data.length) = data := by
  apply List.ext_getElem (by simp [remap])
  intro i h1 h2
  simp [remap, List.getElem?_range, List.getD_eq_getElem, h2]

theorem rgbToRgbw_length (data : List ℕ) : (rgbToRgbw data).length = data.length := by
  simp [rgbToRgbw]

theorem encode_length (data : List ℕ) : (encode data).length = 4 * data.length := by
  induction data with
  | nil => rfl
  | cons w ws ih => simp [encode, wordLE, ih]; ring

theorem encode_drop (data : List ℕ) (i : ℕ) (hi : i < data.length) :
    ((encode data).drop (4 * i)).take 4 = wordLE (data.getD i 0) := by
  induction data generalizing i with
  | nil => simp at hi
  | cons w ws ih =>
    cases i with
    | zero => simp [encode, wordLE]
    | succ n =>
      have h4 : 4 * (n + 1) = (wordLE w).length + 4 * n := by simp [wordLE]; ring
      rw [encode, h4, List.drop_append, List.getD_cons_succ]
      exact ih n (by simpa using hi)

/-- C5: for every pixel sequence and every registered index mapping of length
at least the sequence length whose values are valid indices, `remap` sets
position `i` to the value the pre-remap sequence held at position
`mapping[i]`, reading from the `_tmpData` snapshot (no read/write aliasing);
with the identity mapping the sequence is unchanged. -/
theorem remap_reads_snapshot (data mapping : List ℕ)
    (hlen : data.length ≤ mapping.length)
    (hvals : ∀ j ∈ mapping, j < data.length) :
    ((remap data mapping).length = data.length ∧
      ∀ i (hi : i < data.length) (hm : i < mapping.length)
        (hr : i < (remap data mapping).length)
        (hk : mapping.get ⟨i, hm⟩ < data.length),
        (remap data mapping).get ⟨i, hr⟩ = data.get ⟨mapping.get ⟨i, hm⟩, hk⟩) ∧
    remap data (List.range data.length) = data := by
  refine ⟨⟨remap_length data mapping, ?_⟩, remap_identity data⟩
  intro i hi hm hr hk
  have h := remap_getElem data mapping i hi hlen
  have h2 : (remap data mapping)[i]? = some ((remap data mapping).get ⟨i, hr⟩) := by
    simpa using List.getElem?_eq_getElem hr
  rw [h2] at h
  have h3 : (remap data mapping).get ⟨i, hr⟩ = data.getD (mapping.getD i 0) 0 :=
    Option.some_injective _ h
  rw [h3, List.getD_eq_getElem mapping 0 hm, List.getD_eq_getElem data 0]
  · simp
  · simpa using hk

/-- Witness for C5 at a concrete reversing mapping and the identity. -/
theorem remap_reads_snapshot_witness :
    remap [10, 20, 30] [2, 1, 0] = [30, 20, 10] ∧
    remap [10, 20, 30] (List.range 3) = [10, 20, 30] := by
  have h := remap_reads_snapshot [10, 20, 30] [2, 1, 0] (by decide) (by decide)
  exact ⟨by decide, h.2⟩

end SK6812

namespace SK6812

/-- C7: when the sequence rendered has the configured length (the allocated
buffer holds `4 · numLeds` bytes), the frame transmitted by `render` is the
little-endian encoding of the (transformed) sequence: 4 bytes per word, word
`i` at byte offset `4·i`, total length `4 · numLeds`; in particular
`[0x00010203, 0x04050607]` encodes to `03 02 01 00 07 06 05 04`. -/
theorem render_encodes_littleEndian (s : RpiState) (data buf : List ℕ)
    (hinit : s.isInitialized = true) (hbuf : s.outputBuffer = some buf)
    (hlen : buf.length = 4 * data.length) :
    ∃ out : List ℕ,
      render s data =
        Except.ok ({ s with outputBuffer := some (encode out) }, out,
          [HWCall.renderHW (encode out)]) ∧
      out.length = data.length ∧
      (encode out).length = 4 * data.length ∧
      (∀ i, i < out.length → ((encode out).drop (4 * i)).take 4 = wordLE (out.getD i 0)) ∧
      encode [0x00010203, 0x04050607] = [0x03, 0x02, 0x01, 0x00, 0x07, 0x06, 0x05, 0x04] := by
  have hd1len : (match s.indexMapping with
      | some m => remap data m
      | none => data).length = data.length := by
    cases s.indexMapping <;> simp [remap_length]
  have hd2len : (if s.rgbToRgbw then
      rgbToRgbw (match s.indexMapping with
        | some m => remap data m
        | none => data)
      else (match s.indexMapping with
        | some m => remap data m
        | none => data)).length = data.length := by
    by_cases h : s.rgbToRgbw <;> simp [h, rgbToRgbw_length, hd1len]
  refine ⟨_, ?_, hd2len, by rw [encode_length, hd2len], fun i hi => encode_drop _ i hi, by decide⟩
  simp only [render, hinit, Bool.not_true, Bool.false_eq_true, if_false, hbuf, Option.getD_some]
  rw [hd2len, List.drop_eq_nil_of_le (le_of_eq hlen), List.append_nil]

/-- Witness for C7 at the 2-pixel example from the spec. -/
theorem render_encodes_littleEndian_witness :
    ∃ out : List ℕ,
      render { isInitialized := true, indexMapping := none,
               outputBuffer := some [0, 0, 0, 0, 0, 0, 0, 0],
               useGammaCorrection := false, rgbToRgbw := false }
          [0x00010203, 0x04050607] =
        Except.ok ({ isInitialized := true, indexMapping := none,
                     outputBuffer := some (encode out),
                     useGammaCorrection := false, rgbToRgbw := false }, out,
          [HWCall.renderHW (encode out)]) ∧
      out.length = 2 ∧
      (encode out).length = 8 ∧
      (∀ i, i < out.length → ((encode out).drop (4 * i)).take 4 = wordLE (out.getD i 0)) ∧
      encode [0x00010203, 0x04050607] = [0x03, 0x02, 0x01, 0x00, 0x07, 0x06, 0x05, 0x04] :=
  render_encodes_littleEndian _ [0x00010203, 0x04050607] [0, 0, 0, 0, 0, 0, 0, 0]
    rfl rfl (by decide)

end SK6812

namespace SK6812

/-- The `_useGammaCorrection` flag `init` derives from its options. -/
def optGamma : JSOptions → Bool
  | .obj g _ _ => g
  | _ => false

/-- The `_rgbToRgbw` flag `init` derives from its options: the option must be
truthy and `strip_type` must equal `STRIP_TYPES.SK6812W`. -/
def optRgbw : JSOptions → Bool
  | .obj _ w st => w && st == some .SK6812W
  | _ => false

/-- Inversion for `init`: it succeeds exactly on non-`null` options, and then
sets the initialized flag, allocates the `4·numLeds`-byte buffer, derives the
two feature flags, and leaves the index mapping untouched. -/
theorem init_ok_iff (n : ℕ) (opts : JSOptions) (s s' : RpiState) (tr : List HWCall) :
    init n opts s = .ok (s', tr) ↔
      (opts ≠ .null ∧
        s' = { s with
                isInitialized := true
                outputBuffer := some (List.replicate (4 * n) 0)
                useGammaCorrection := optGamma opts
                rgbToRgbw := optRgbw opts } ∧
        tr = [.initHW n]) := by
  cases opts <;>
    simp [init, jsTypeofIsObject, readGammaCorrection, readRgbToRgbw, readStripType,
      optGamma, optRgbw, Bind.bind, Except.bind, and_comm, eq_comm]

/-- C6: `render` and `setBrightness` raise the not-initialized error exactly
when the lifecycle state is uninitialized — before any `init`, never after a
successful `init`, and again after `reset`; in the failing case nothing is
transmitted and no state is produced. -/
theorem notInitialized_guard :
    (∀ s data, s.isInitialized = false →
      render s data = .error "render called before initialization.") ∧
    (∀ s b r, s.isInitialized = false →
      setBrightness s b r = .error "setBrightness called before initialization.") ∧
    (∀ s data, s.isInitialized = true → ∃ s' out tr, render s data = .ok (s', out, tr)) ∧
    (∀ s b r, s.isInitialized = true → ∃ tr, setBrightness s b r = .ok tr) ∧
    (∀ data, render initialState data = .error "render called before initialization.") ∧
    (∀ b r, setBrightness initialState b r =
      .error "setBrightness called before initialization.") ∧
    (∀ n opts s s' tr, init n opts s = .ok (s', tr) → s'.isInitialized = true) ∧
    (∀ s data, render (reset s).1 data = .error "render called before initialization.") ∧
    (∀ s b r, setBrightness (reset s).1 b r =
      .error "setBrightness called before initialization.") := by
  refine ⟨fun s data h => by simp [render, h],
    fun s b r h => by simp [setBrightness, h],
    fun s data h => by unfold render; rw [h]; exact ⟨_, _, _, rfl⟩,
    fun s b r h => by unfold setBrightness; rw [h]; exact ⟨_, rfl⟩,
    fun data => by simp [render, initialState],
    fun b r => by simp [setBrightness, initialState],
    fun n opts s s' tr h => ?_,
    fun s data => by simp [render, reset],
    fun s b r => by simp [setBrightness, reset]⟩
  rcases (init_ok_iff n opts s s' tr).mp h with ⟨-, rfl, -⟩
  rfl

/-- Witness for C6: concrete failing calls before `init` and after `reset`,
and concrete successes in the initialized state. -/
theorem notInitialized_guard_witness :
    render initialState [1, 2] = .error "render called before initialization." ∧
    setBrightness initialState 10 none =
      .error "setBrightness called before initialization." ∧
    (∃ s' out tr,
      render { isInitialized := true, indexMapping := none, outputBuffer := some [0, 0, 0, 0],
               useGammaCorrection := false, rgbToRgbw := false } [7] = .ok (s', out, tr)) ∧
    render (reset { isInitialized := true, indexMapping := none,
                    outputBuffer := some [0, 0, 0, 0],
                    useGammaCorrection := false, rgbToRgbw := false }).1 [7] =
      .error "render called before initialization." :=
  ⟨notInitialized_guard.1 initialState [1, 2] rfl,
    notInitialized_guard.2.1 initialState 10 none rfl,
    notInitialized_guard.2.2.1 _ [7] rfl,
    notInitialized_guard.2.2.2.2.2.2.2.1 _ [7]⟩

/-- C8: in the initialized state, `setBrightness` forwards
`GammaTable[value]` when gamma correction is enabled and the raw value
otherwise, and retransmits the current frame exactly when the `autoRender`
argument is not `false` (absent defaults to retransmitting). -/
theorem setBrightness_forwards (s : RpiState) (v : ℕ) (r : Option Bool)
    (hinit : s.isInitialized = true) (hv : v < 256) :
    setBrightness s v r =
      .ok ([HWCall.setBrightnessHW (if s.useGammaCorrection then gammaEntry v else v)] ++
        if r = some false then [] else [HWCall.renderHW (s.outputBuffer.getD [])]) := by
  simp [setBrightness, hinit, Nat.mod_eq_of_lt hv]

/-- Witness for C8: gamma enabled with `autoRender` absent (retransmits), and
gamma disabled with `autoRender = false` (does not retransmit). -/
theorem setBrightness_forwards_witness :
    setBrightness { isInitialized := true, indexMapping := none,
                    outputBuffer := some [9, 9, 9, 9],
                    useGammaCorrection := true, rgbToRgbw := false } 128 none =
      .ok [HWCall.setBrightnessHW (gammaEntry 128), HWCall.renderHW [9, 9, 9, 9]] ∧
    setBrightness { isInitialized := true, indexMapping := none,
                    outputBuffer := some [9, 9, 9, 9],
                    useGammaCorrection := false, rgbToRgbw := false } 200 (some false) =
      .ok [HWCall.setBrightnessHW 200] := by
  constructor
  · have h := setBrightness_forwards
      { isInitialized := true, indexMapping := none, outputBuffer := some [9, 9, 9, 9],
        useGammaCorrection := true, rgbToRgbw := false } 128 none rfl (by decide)
    simpa using h
  · have h := setBrightness_forwards
      { isInitialized := true, indexMapping := none, outputBuffer := some [9, 9, 9, 9],
        useGammaCorrection := false, rgbToRgbw := false } 200 (some false) rfl (by decide)
    simpa using h

end SK6812

namespace SK6812

/-- C2: after any `init`, `render` applies the RGB→RGBW conversion exactly
when the `rgbToRgbw` option was truthy AND the configured strip type is the
4-channel SK6812W variant; with any other strip type (or none) the conversion
is skipped even if `rgbToRgbw` was requested. -/
theorem rgbToRgbw_gating (n : ℕ) (g w : Bool) (st : Option StripType)
    (s₀ s' : RpiState) (tr : List HWCall) (data : List ℕ)
    (h : init n (.obj g w st) s₀ = .ok (s', tr)) :
    s'.rgbToRgbw = (w && st == some StripType.SK6812W) ∧
    ∃ s'' tr', render s' data =
      .ok (s'',
        (if w && st == some StripType.SK6812W then
          rgbToRgbw (match s₀.indexMapping with
            | some m => remap data m
            | none => data)
        else (match s₀.indexMapping with
          | some m => remap data m
          | none => data)), tr') := by
  rcases (init_ok_iff n _ s₀ s' tr).mp h with ⟨-, rfl, -⟩
  refine ⟨rfl, ?_⟩
  unfold render
  exact ⟨_, _, rfl⟩

/-- Witness for C2: `rgbToRgbw` requested together with the 3-channel
WS2812 strip type; the conversion is not applied to the rendered data. -/
theorem rgbToRgbw_gating_witness :
    ({ isInitialized := true, indexMapping := none,
       outputBuffer := some (List.replicate 4 0), useGammaCorrection := true,
       rgbToRgbw := false } : RpiState).rgbToRgbw = false ∧
    ∃ s'' tr',
      render { isInitialized := true, indexMapping := none,
               outputBuffer := some (List.replicate 4 0), useGammaCorrection := true,
               rgbToRgbw := false } [255] = .ok (s'', [255], tr') := by
  have h := rgbToRgbw_gating 1 true true (some .WS2812) initialState _ _ [255] rfl
  exact ⟨h.1, h.2⟩

/-- C10: `reset` clears the initialized flag and releases the frame buffer
but keeps the registered index mapping; the mapping survives `reset` and a
subsequent `init`, and a later `render` still remaps through it. -/
theorem indexMapping_persists (s : RpiState) (m : List ℕ) (n : ℕ) (opts : JSOptions)
    (s' : RpiState) (tr : List HWCall) (data : List ℕ)
    (hinit : init n opts (reset (setIndexMapping s m)).1 = .ok (s', tr)) :
    (reset (setIndexMapping s m)).1.isInitialized = false ∧
    (reset (setIndexMapping s m)).1.outputBuffer = none ∧
    (reset (setIndexMapping s m)).1.indexMapping = some m ∧
    s'.indexMapping = some m ∧
    ∃ s'' tr', render s' data =
      .ok (s'', (if s'.rgbToRgbw then rgbToRgbw (remap data m) else remap data m), tr') := by
  rcases (init_ok_iff n opts _ s' tr).mp hinit with ⟨-, rfl, -⟩
  refine ⟨rfl, rfl, rfl, rfl, ?_⟩
  unfold render
  exact ⟨_, _, rfl⟩

/-- Witness for C10: a mapping registered before `reset`/`init` is still
applied by a `render` after them. -/
theorem indexMapping_persists_witness :
    (reset (setIndexMapping initialState [1, 0])).1.indexMapping = some [1, 0] ∧
    ∃ s'' tr',
      render { isInitialized := true, indexMapping := some [1, 0],
               outputBuffer := some (List.replicate 8 0), useGammaCorrection := false,
               rgbToRgbw := false } [5, 7] =
        .ok (s'', remap [5, 7] [1, 0], tr') := by
  have h := indexMapping_persists initialState [1, 0] 2 .undef _ _ [5, 7] rfl
  exact ⟨h.2.2.1, h.2.2.2.2⟩

end SK6812

namespace SK6812

/-- C3 (code bug at `options = null`): `init` is permissive for an absent
options argument, a primitive, or any object — defaults `gammaCorrection =
false`, `rgbToRgbw = false`, frame allocated, state initialized — but
`init(n, null)` throws a `TypeError`: `typeof null === 'object'` skips the
defaulting branch and the subsequent property read throws, although the
JSDoc declares the parameter as nullable (`@param {?Object} options`). -/
theorem init_null_throws :
    init 1 JSOptions.null initialState =
      .error "TypeError: cannot read properties of null" ∧
    (∀ n s, init n JSOptions.undef s =
      .ok ({ s with
              isInitialized := true
              outputBuffer := some (List.replicate (4 * n) 0)
              useGammaCorrection := false
              rgbToRgbw := false }, [.initHW n])) ∧
    (∀ n s, init n JSOptions.prim s =
      .ok ({ s with
              isInitialized := true
              outputBuffer := some (List.replicate (4 * n) 0)
              useGammaCorrection := false
              rgbToRgbw := false }, [.initHW n])) ∧
    (∀ n s g w st, init n (JSOptions.obj g w st) s =
      .ok ({ s with
              isInitialized := true
              outputBuffer := some (List.replicate (4 * n) 0)
              useGammaCorrection := g
              rgbToRgbw := w && st == some .SK6812W },
            [.initHW n])) ∧
    (∀ n s, init n JSOptions.null s =
      .error "TypeError: cannot read properties of null") := by
  refine ⟨rfl, fun n s => ?_, fun n s => ?_, fun n s g w st => ?_, fun n s => ?_⟩ <;> rfl

set_option maxRecDepth 20000 in
/-- C1 (code bug): with `gammaCorrection` enabled, the gamma pass of `render`
is `data.map(gammaCorrect)`, whose result is discarded, so the frame that is
encoded and transmitted — and the returned sequence — hold the uncorrected
pixel values: rendering `[128]` transmits `[128, 0, 0, 0]` and returns
`[128]`, although `gammaCorrect 128 = 55`, so the gamma-corrected frame
would be `[55, 0, 0, 0]`. -/
theorem render_gamma_discarded :
    init 1 (JSOptions.obj true false none) initialState =
      .ok ({ isInitialized := true, indexMapping := none,
              outputBuffer := some [0, 0, 0, 0], useGammaCorrection := true,
              rgbToRgbw := false }, [.initHW 1]) ∧
    render { isInitialized := true, indexMapping := none,
             outputBuffer := some [0, 0, 0, 0], useGammaCorrection := true,
             rgbToRgbw := false } [128] =
      .ok ({ isInitialized := true, indexMapping := none,
              outputBuffer := some [128, 0, 0, 0], useGammaCorrection := true,
              rgbToRgbw := false }, [128], [HWCall.renderHW [128, 0, 0, 0]]) ∧
    gammaCorrect 128 = 55 ∧
    encode ([128].map gammaCorrect) = [55, 0, 0, 0] ∧
    ([128, 0, 0, 0] : List ℕ) ≠ [55, 0, 0, 0] := by
  refine ⟨rfl, rfl, ?_, ?_, by decide⟩ <;>
    · show _ = _
      decide

end SK6812

namespace SK6812

end SK6812

namespace SK6812

theorem countP_range_lt (K n : ℕ) :
    (List.range n).countP (fun j => decide (j < K)) = min K n := by
  induction n with
  | zero => simp
  | succ n ih =>
    rw [List.range_succ, List.countP_append, ih]
    simp only [List.countP_cons, List.countP_nil]
    rcases lt_or_ge n K with h | h
    · rw [decide_eq_true h]
      simp
      omega
    · rw [decide_eq_false (Nat.not_lt.mpr h)]
      simp
      omega

/-- The integer test counted by `gammaEntry` is exactly the real comparison
`m ≤ (i/255)^(20/9)·255 + 1/2` for `m = j + 1`. -/
theorem gamma_key (i j : ℕ) :
    ((2 * j + 1) ^ 9 * 255 ^ 20 ≤ i ^ 20 * 510 ^ 9) ↔
      ((j : ℝ) + 1 ≤ ((i : ℝ) / 255) ^ ((20 : ℝ) / 9) * 255 + 1 / 2) := by
  have ha : (0 : ℝ) ≤ (i : ℝ) / 255 := by positivity
  set t : ℝ := ((i : ℝ) / 255) ^ ((20 : ℝ) / 9) with htdef
  have ht : 0 ≤ t := Real.rpow_nonneg ha _
  have step1 : ((j : ℝ) + 1 ≤ t * 255 + 1 / 2) ↔ ((2 * j + 1 : ℕ) : ℝ) ≤ 510 * t := by
    push_cast
    constructor <;> intro h <;> linarith
  have hp9 : ((2 * j + 1 : ℕ) : ℝ) ≤ 510 * t ↔
      (((2 * j + 1 : ℕ) : ℝ) / 510) ^ (9 : ℕ) ≤ t ^ (9 : ℕ) := by
    rw [pow_le_pow_iff_left₀ (by positivity) ht (by norm_num),
      div_le_iff₀ (by norm_num : (0:ℝ) < 510)]
    constructor <;> intro h <;> linarith
  have ht9 : t ^ (9 : ℕ) = ((i : ℝ) / 255) ^ (20 : ℕ) := by
    rw [htdef, ← Real.rpow_natCast (((i : ℝ) / 255) ^ ((20 : ℝ) / 9)) 9,
      ← Real.rpow_mul ha]
    norm_num
    rw [← Real.rpow_natCast ((i : ℝ) / 255) 20]
    norm_num
  have hfinal : (((2 * j + 1 : ℕ) : ℝ) / 510) ^ (9 : ℕ) ≤ ((i : ℝ) / 255) ^ (20 : ℕ) ↔
      ((2 * j + 1) ^ 9 * 255 ^ 20 ≤ i ^ 20 * 510 ^ 9) := by
    rw [div_pow, div_pow, div_le_div_iff₀ (by positivity) (by positivity)]
    constructor <;> intro h <;> exact_mod_cast h
  rw [step1, hp9, ht9, hfinal]

/-- `gammaEntry i` equals the floor formula of the source,
`Math.floor(Math.pow(i / 255, 1 / 0.45) * 255 + 0.5)`, over exact reals. -/
theorem gammaEntry_eq_floor (i : ℕ) (hi : i ≤ 255) :
    (gammaEntry i : ℤ) = ⌊((i : ℝ) / 255) ^ ((1 : ℝ) / 0.45) * 255 + 0.5⌋ := by
  have hexp : ((1 : ℝ) / 0.45) = 20 / 9 := by norm_num
  have h05 : (0.5 : ℝ) = 1 / 2 := by norm_num
  rw [hexp, h05]
  set x : ℝ := ((i : ℝ) / 255) ^ ((20 : ℝ) / 9) * 255 + 1 / 2 with hxdef
  have ha : (0 : ℝ) ≤ (i : ℝ) / 255 := by positivity
  have ht : 0 ≤ ((i : ℝ) / 255) ^ ((20 : ℝ) / 9) := Real.rpow_nonneg ha _
  have hx0 : (0 : ℝ) ≤ x := by rw [hxdef]; positivity
  have ha1 : (i : ℝ) / 255 ≤ 1 := by
    rw [div_le_one (by norm_num)]
    exact_mod_cast hi
  have hxle : x ≤ 255.5 := by
    have := Real.rpow_le_one ha ha1 (by norm_num : (0:ℝ) ≤ (20:ℝ)/9)
    rw [hxdef]
    nlinarith
  have hfl0 : 0 ≤ ⌊x⌋ := Int.floor_nonneg.mpr hx0
  have hfl255 : ⌊x⌋ ≤ 255 := by
    have h1 : (⌊x⌋ : ℝ) ≤ 255.5 := le_trans (Int.floor_le x) hxle
    have h2 : (⌊x⌋ : ℝ) < 256 := lt_of_le_of_lt h1 (by norm_num)
    exact_mod_cast Int.lt_add_one_iff.mp (by exact_mod_cast h2)
  set K : ℕ := ⌊x⌋.toNat with hKdef
  have hKx : ⌊x⌋ = (K : ℤ) := (Int.toNat_of_nonneg hfl0).symm
  have hK255 : K ≤ 255 := by omega
  have hfun : (fun j => decide ((2 * j + 1) ^ 9 * 255 ^ 20 ≤ i ^ 20 * 510 ^ 9)) =
      (fun j => decide (j < K)) := by
    funext j
    rw [decide_eq_decide]
    rw [gamma_key i j, ← hxdef]
    constructor
    · intro h
      have h2 : ((j : ℤ) + 1 : ℤ) ≤ ⌊x⌋ := Int.le_floor.mpr (by push_cast; exact_mod_cast h)
      omega
    · intro h
      have h2 : ((j : ℤ) + 1 : ℤ) ≤ ⌊x⌋ := by omega
      have h3 := Int.le_floor.mp h2
      push_cast at h3
      exact_mod_cast h3
  rw [gammaEntry, hfun, countP_range_lt, min_eq_left hK255]
  omega

theorem gammaEntry_mono (i j : ℕ) (h : i ≤ j) : gammaEntry i ≤ gammaEntry j := by
  apply List.countP_mono_left
  intro k _ hk
  rw [decide_eq_true_eq] at hk ⊢
  exact le_trans hk (Nat.mul_le_mul_right _ (Nat.pow_le_pow_left h 20))

set_option maxRecDepth 10000 in
theorem gammaEntry_zero : gammaEntry 0 = 0 := by decide

set_option maxRecDepth 10000 in
theorem gammaEntry_last : gammaEntry 255 = 255 := by decide

/-- C9: the 256-entry gamma table satisfies
`table[i] = floor(pow(i/255, 1/0.45) · 255 + 0.5)` for every `i < 256`, is
non-decreasing in the index, and has `table[0] = 0`, `table[255] = 255`. -/
theorem gammaTable_props :
    (∀ i, i < 256 →
      (gammaEntry i : ℤ) = ⌊((i : ℝ) / 255) ^ ((1 : ℝ) / 0.45) * 255 + 0.5⌋) ∧
    (∀ i j, i ≤ j → gammaEntry i ≤ gammaEntry j) ∧
    gammaEntry 0 = 0 ∧ gammaEntry 255 = 255 :=
  ⟨fun i hi => gammaEntry_eq_floor i (by omega), gammaEntry_mono,
    gammaEntry_zero, gammaEntry_last⟩

/-- Witness for C9 at index 128 and the pair 17 ≤ 200. -/
theorem gammaTable_props_witness :
    (gammaEntry 128 : ℤ) = ⌊((128 : ℝ) / 255) ^ ((1 : ℝ) / 0.45) * 255 + 0.5⌋ ∧
    gammaEntry 17 ≤ gammaEntry 200 :=
  ⟨by
      have h := gammaTable_props.1 128 (by norm_num)
      exact_mod_cast h,
    gammaTable_props.2.1 17 200 (by norm_num)⟩

end SK6812
